import Mathlib

/-!
Verification of the Hedron microhypervisor kernel excerpt (src/space.cpp,
src/syscall.cpp, src/ec.cpp, src/ec_exc.cpp, src/acpi_dmar.cpp) against its
natural-language specification.

The C++ sources are shallowly embedded: machine words (`mword`) become `Nat`
(no arithmetic in the verified paths can overflow 64 bits), pointers become
indices, and the `noreturn` continuation style of the kernel becomes functions
returning a new state together with a terminal action.
-/

/-! ## Mapping database (src/space.cpp)

`Mdb` nodes carry (base, order, attr, type); the tree operations
`Mdb::lookup`, `Mdb::insert`, `Mdb::remove` and the helper `max_order` are
declared outside the excerpt.  Modelled from the spec: the MDB is "a per-space
ordered tree keyed by (base, order)" whose `lookup(idx)` "returns the node
covering idx"; we model the node collection as a list, `insert` as prepending
the new node, `lookup` as the first covering node and `remove` as erasing the
node.  `max_order(addr, size)` is modelled from the spec as the "largest order
that fits both alignment and remaining size".  Addresses and sizes are in page
units, as in `Space::delreg` which shifts by `PAGE_BITS` before consulting the
tree. -/

structure Mdb where
  node_base : Nat
  node_order : Nat
  node_attr : Nat
  node_type : Nat
deriving DecidableEq

def PAGE_BITS : Nat := 12

/-- Does node `n` cover page `p`, i.e. `p ∈ [base, base + (1 << order))`. -/
def mdbCovb (n : Mdb) (p : Nat) : Bool :=
  decide (n.node_base ≤ p) && decide (p < n.node_base + (1 <<< n.node_order))

/-- `Mdb::lookup(tree, idx, false)`: the node covering `idx`. -/
def treeLookup (t : List Mdb) (p : Nat) : Option Mdb :=
  t.find? (fun n => mdbCovb n p)

/-- Modelled from the spec: helper for `max_order`; scans candidate orders
downward from `f`, keeping the largest `o` with `addr` aligned to `2^o` and
`2^o ≤ size`.  Order `0` always qualifies. -/
def maxOrderAux (a s : Nat) : Nat → Nat
  | 0 => 0
  | o + 1 => if a % 2 ^ (o + 1) = 0 ∧ 2 ^ (o + 1) ≤ s then o + 1 else maxOrderAux a s o

/-- Modelled from the spec: `max_order(addr, size)` is the "largest order that
fits both alignment and remaining size".  Any valid order `o` satisfies
`o < 2^o ≤ size`, so fuel `s` covers all candidates. -/
def max_order (a s : Nat) : Nat := maxOrderAux a s s

/-- `Space::addreg` loop body, with the size itself as structural fuel (each
iteration consumes at least one page, so fuel `s` is exact). -/
def addregAux (attr ty : Nat) : Nat → Nat → Nat → List Mdb → List Mdb
  | 0, _, _, t => t
  | f + 1, a, s, t =>
    if s = 0 then t
    else
      addregAux attr ty f (a + 2 ^ max_order a s) (s - 2 ^ max_order a s)
        (⟨a, max_order a s, attr, ty⟩ :: t)

/-- `Space::addreg(addr, size, attr, type)`: greedily decompose `[addr,
addr+size)` into naturally aligned power-of-two chunks and insert one node per
chunk. -/
def addreg (a s attr ty : Nat) (t : List Mdb) : List Mdb :=
  addregAux attr ty s a s t

/-- The chunk list `(base, order)` produced by the `addreg` loop, with the same
fuel discipline. -/
def decompAux : Nat → Nat → Nat → List (Nat × Nat)
  | 0, _, _ => []
  | f + 1, a, s =>
    if s = 0 then []
    else (a, max_order a s) :: decompAux f (a + 2 ^ max_order a s) (s - 2 ^ max_order a s)

def decomp (a s : Nat) : List (Nat × Nat) := decompAux s a s

/-- `Space::delreg(addr)`: shift to the page number, remove the covering node,
and re-add the two flanking sub-ranges with the removed node's attr and type. -/
def delreg (addr : Nat) (t : List Mdb) : List Mdb :=
  let a := addr >>> PAGE_BITS
  match treeLookup t a with
  | none => t
  | some node =>
    let t' := t.erase node
    let next := a + 1
    let base := node.node_base
    let last := base + (1 <<< node.node_order)
    addreg next (last - next) node.node_attr node.node_type
      (addreg base (a - base) node.node_attr node.node_type t')

/-- A chunk list is a greedy decomposition of `[a, a+s)` into naturally
aligned power-of-two sub-ranges, each of the largest order that fits both the
alignment of its start and the remaining size. -/
inductive GreedyDecomp : Nat → Nat → List (Nat × Nat) → Prop
  | nil (a : Nat) : GreedyDecomp a 0 []
  | cons (a s o : Nat) (l : List (Nat × Nat))
      (halign : a % 2 ^ o = 0) (hfit : 2 ^ o ≤ s)
      (hmax : ∀ j, a % 2 ^ j = 0 → 2 ^ j ≤ s → j ≤ o)
      (hrest : GreedyDecomp (a + 2 ^ o) (s - 2 ^ o) l) :
      GreedyDecomp a s ((a, o) :: l)

/-- Node built from a chunk with fixed attr and type. -/
def mdbOf (attr ty : Nat) (q : Nat × Nat) : Mdb := ⟨q.1, q.2, attr, ty⟩

/-- Conclusion of the `delreg` decomposition claim: the covering node is in the
tree and covers the page; `delreg` erases exactly it and prepends the greedy
decompositions of the two flanking sub-ranges, carrying the removed node's
attr and type. -/
def DelregConcl (t : List Mdb) (addr : Nat) (n : Mdb) : Prop :=
  n ∈ t ∧
  n.node_base ≤ addr >>> PAGE_BITS ∧
  addr >>> PAGE_BITS < n.node_base + (1 <<< n.node_order) ∧
  delreg addr t
    = ((decomp ((addr >>> PAGE_BITS) + 1)
          ((n.node_base + (1 <<< n.node_order)) - ((addr >>> PAGE_BITS) + 1))).map
          (mdbOf n.node_attr n.node_type)).reverse
      ++ ((decomp n.node_base ((addr >>> PAGE_BITS) - n.node_base)).map
          (mdbOf n.node_attr n.node_type)).reverse
      ++ t.erase n ∧
  GreedyDecomp n.node_base ((addr >>> PAGE_BITS) - n.node_base)
    (decomp n.node_base ((addr >>> PAGE_BITS) - n.node_base)) ∧
  GreedyDecomp ((addr >>> PAGE_BITS) + 1)
    ((n.node_base + (1 <<< n.node_order)) - ((addr >>> PAGE_BITS) + 1))
    (decomp ((addr >>> PAGE_BITS) + 1)
      ((n.node_base + (1 <<< n.node_order)) - ((addr >>> PAGE_BITS) + 1)))

/-! ## Kernel objects and the execution-context state machine

The syscall and exception paths of src/syscall.cpp, src/ec.cpp and
src/ec_exc.cpp are embedded over an explicit kernel state.  All the embedded
functions are `noreturn` in C++ (they end in `return_to_user`,
`ret_user_sysexit`, `Sc::schedule`, `help` or `die`); they are modelled as
returning the mutated state together with a terminal `Kont` action (and, where
a claim observes them, a list of externally visible events such as IPIs). -/

/-- Syscall status codes (include/sys_regs fields; values are irrelevant to
the claims, only their identity). -/
inductive Status
  | SUCCESS | COM_TIM | COM_ABT | BAD_HYP | BAD_CAP | BAD_PAR | BAD_CPU | BAD_DEV | BAD_FTR | OOM
deriving DecidableEq

/-- Capability type tags (PD, EC, SC, PT, SM, KP, VCPU). -/
inductive CapTag
  | pd | ec | sc | pt | sm | kp | vcpu
deriving DecidableEq

/-- A capability: typed, permissioned reference to a kernel object (by id). -/
structure Cap where
  tag : CapTag
  prm : Nat
  obj : Nat
deriving DecidableEq

/-- Modelled from the spec: `capability_cast<T>(cap, required_perms)` "yields a
typed reference iff the tag matches `T` and the permission bits cover
`required_perms`" (capability.hpp is outside the excerpt). -/
def capability_cast (t : CapTag) (req : Nat) : Option Cap → Option Nat
  | none => none
  | some c => if c.tag = t ∧ c.prm &&& req = req then some c.obj else none

/-- `Capability::prm()` of an object-space slot (0 for an empty slot). -/
def capPrm : Option Cap → Nat
  | none => 0
  | some c => c.prm

/-- The hazard bits sampled by the return-to-user paths in the excerpt:
HZD_RCU, HZD_SCHED, HZD_RECALL, HZD_STEP, HZD_DS_ES. -/
structure Hazards where
  rcu : Bool
  sched : Bool
  rcl : Bool
  stp : Bool
  ds_es : Bool
deriving DecidableEq

/-- Bitwise OR of two hazard words (`Cpu::hazard() | current()->regs.hazard()`). -/
def hzdOr (a b : Hazards) : Hazards :=
  ⟨a.rcu || b.rcu, a.sched || b.sched, a.rcl || b.rcl, a.stp || b.stp,
   a.ds_es || b.ds_es⟩

/-- Hazards sampled by `Ec::ret_user_sysexit` (ec.cpp lines 121-122): mask
`HZD_RECALL | HZD_STEP | HZD_RCU | HZD_DS_ES | HZD_SCHED`. -/
def sysexitSample (cpuH ecH : Hazards) : Hazards := hzdOr cpuH ecH

/-- Hazards sampled by `Ec::ret_user_iret` (ec.cpp line 184): mask
`HZD_RECALL | HZD_STEP | HZD_RCU | HZD_SCHED` — no HZD_DS_ES, because IRET
reloads the segment registers anyway. -/
def iretSample (cpuH ecH : Hazards) : Hazards :=
  { hzdOr cpuH ecH with ds_es := false }

/-- Continuations: the spec's design note asks for a tagged variant in place of
the C++ function pointers stored in `Ec::cont`.  `nil` is the null pointer. -/
inductive EcCont
  | nil
  | ret_user_sysexit
  | ret_user_iret
  | ret_user_vmresume
  | recv_user
  | recv_kern
  | idleCont
  | dead
  | sysFinish (st : Status) (clearTimeout : Bool)
  | send_msg_iret
deriving DecidableEq

/-- Execution context.  `cpu` stands for both `Ec::cpu` and `Ec::xcpu` (the
excerpt never distinguishes them; the spec pins every EC to one CPU).
`regs_*` are the register-frame fields the claims observe. -/
structure EC where
  cont : EcCont
  partner : Option Nat
  rcap : Option Nat
  cpu : Nat
  glb : Bool
  evt : Nat
  hzd : Hazards
  regs_pt : Nat
  regs_ip : Nat
  regs_mtd : Nat
  regs_dst_portal : Nat
deriving DecidableEq

/-- Portal: server EC (by id), entry ip, portal id, message-transfer descriptor. -/
structure Pt where
  ec : Nat
  ip : Nat
  id : Nat
  mtd : Nat
deriving DecidableEq

/-- Kernel state: object tables are total maps from ids, the capability space
is the current PD's object space (selector → capability).  `remote c` is the
EC currently executing on CPU `c` (`Ec::remote`), `cpuOnline` is
`Hip::cpu_online`, `featVMX` the `Hip::FEAT_VMX` bit, `msrOk` abstracts the
success of the external `Msr::user_read`/`user_write`.  `pdPass` is each PD's
passthrough flag, `pdParent` the PD it was created from, `nextId` the next
fresh object id. -/
structure Kstate where
  ecs : Nat → EC
  pts : Nat → Pt
  caps : Nat → Option Cap
  pdPass : Nat → Bool
  pdParent : Nat → Option Nat
  curEc : Nat
  curPd : Nat
  curCpu : Nat
  remote : Nat → Option Nat
  cpuOnline : Nat → Bool
  featVMX : Bool
  msrOk : Bool
  nextId : Nat

/-- Update one EC in the state. -/
def updEc (s : Kstate) (i : Nat) (f : EC → EC) : Kstate :=
  { s with ecs := fun j => if j = i then f (s.ecs j) else s.ecs j }

/-- Externally visible events of the modelled paths. -/
inductive Event
  | ipiRke (cpu : Nat)
  | msrRead (idx : Nat)
  | msrWrite (idx val : Nat)
  | machineSuspend
  | microcodeUpdate (addr : Nat)
deriving DecidableEq

/-- IRQ_CTRL sub-operations (dispatch targets of `Ec::sys_irq_ctrl`). -/
inductive IrqOp
  | configure_vector | assign_ioapic_pin | mask_ioapic_pin | assign_msi | assign_lvt | mask_lvt
deriving DecidableEq

/-- Terminal action of a `noreturn` kernel path. -/
inductive Kont
  | switchTo (ec : Nat)
  | finish (st : Status)
  | helpThenFinish (ec : Nat) (st : Status)
  | helpThenDie (ec : Nat)
  | scheduleBlock
  | activateScEc
  | replyTail (caller : Nat) (clr : Bool)
  | irqDispatch (op : IrqOp)
deriving DecidableEq

/-- Permission bit for object creation (`Pd::PERM_OBJ_CREATION`; the numeric
value is outside the excerpt and irrelevant). -/
def PERM_OBJ_CREATION : Nat := 1

/-- `Ec::PERM_EC_CTRL` permission bit. -/
def PERM_EC_CTRL : Nat := 1

/-- `Ec::PERM_ALL` permission mask for freshly created ECs. -/
def EC_PERM_ALL : Nat := 3

/-- `USER_ADDR`: one page below the lower canonical boundary (see the sysret
comment in ec.cpp lines 147-150). -/
def USER_ADDR : Nat := 2 ^ 47 - 2 ^ 12

def PAGE_MASK : Nat := 2 ^ 12 - 1

/-- `EXC_STARTUP` portal index for new ECs (value outside the excerpt). -/
def EXC_STARTUP : Nat := 30

/-- `EXC_RECALL` portal index (value outside the excerpt). -/
def EXC_RECALL : Nat := 31

/-- `Cpu::EXC_DB`: the x86 debug-exception vector. -/
def EXC_DB : Nat := 1

/-- Modelled from the spec: `Ec::set_partner` is declared in ec.hpp, outside
the excerpt; spec §4.4 call-path step 3 reads `C.partner = S; S.rcap = C`. -/
def set_partner (s : Kstate) (p : Nat) : Kstate :=
  let s₁ := updEc s s.curEc (fun e => { e with partner := some p })
  updEc s₁ p (fun e => { e with rcap := some s.curEc })

/-- Modelled from the spec: `Ec::clr_partner` (ec.hpp, outside the excerpt)
clears the caller's partner linkage — spec §4.4 reply step 3 — and reports
whether a link to the current EC was removed. -/
def clr_partner (s : Kstate) (i : Nat) : Kstate × Bool :=
  if (s.ecs i).partner = some s.curEc then
    (updEc s i (fun e => { e with partner := none }), true)
  else (s, false)

/-- `Ec::reply(c, sm)` with `sm == nullptr` (syscall.cpp lines 178-202): store
the continuation, then hand off.  `Sc::current`, `Sc::schedule` and
`Ec::activate`'s scheduling effects are outside the excerpt's state; the
branches that reach them terminate in the corresponding `Kont`. -/
def reply (s : Kstate) (c : EcCont) : Kstate × Kont :=
  let s₁ := updEc s s.curEc (fun e => { e with cont := c })
  if (s₁.ecs s₁.curEc).glb then (s₁, .scheduleBlock)
  else
    match (s₁.ecs s₁.curEc).rcap with
    | none => (s₁, .activateScEc)
    | some ec =>
      let pr := clr_partner s₁ ec
      (pr.1, .replyTail ec pr.2)

/-- `Ec::die` (ec.cpp lines 308-320): notify the caller recorded in `rcap`
(COM_ABT if it was waiting in `ret_user_sysexit`, otherwise it is dead too),
then `reply(dead)`. -/
def die (s : Kstate) : Kstate × Kont :=
  let s₁ :=
    match (s.ecs s.curEc).rcap with
    | none => s
    | some r =>
      updEc s r (fun e =>
        { e with cont := if e.cont = .ret_user_sysexit then .sysFinish .COM_ABT false else .dead })
  reply s₁ .dead

/-- `Ec::send_msg<C>` (syscall.cpp lines 90-118): exception-portal delivery.
The portal selector is the faulting EC's event base plus `regs.dst_portal`.
Missing portal or wrong CPU kills the current EC via `die`; a busy server
leads to `help` and, if that returns, `die("IPC Timeout")`. -/
def send_msg (s : Kstate) (retC : EcCont) : Kstate × Kont :=
  match capability_cast .pt 0
      (s.caps ((s.ecs s.curEc).evt + (s.ecs s.curEc).regs_dst_portal)) with
  | none => die s
  | some ptId =>
    let pt := s.pts ptId
    if s.curCpu ≠ (s.ecs pt.ec).cpu then die s
    else if (s.ecs pt.ec).cont = .nil then
      let s₁ := updEc s s.curEc (fun e => { e with cont := retC })
      let s₂ := set_partner s₁ pt.ec
      let s₃ := updEc s₂ s.curEc (fun e => { e with regs_mtd := pt.mtd })
      let s₄ := updEc s₃ pt.ec
        (fun e => { e with cont := .recv_kern, regs_pt := pt.id, regs_ip := pt.ip })
      (s₄, .switchTo pt.ec)
    else (s, .helpThenDie pt.ec)

/-- Tail of `Ec::handle_exc` (ec_exc.cpp lines 212-215) once no in-kernel
handler resolved the exception: user faults are delivered through
`send_msg<ret_user_iret>`, kernel faults die.  (`regs.dst_portal` equals the
exception vector at this point, per the assertion at line 193.) -/
def handle_exc_fallthrough (s : Kstate) (user : Bool) : Kstate × Kont :=
  if user then send_msg s .ret_user_iret else die s

/-- `Sys_call` arguments: portal selector and flags.  The only flag is
`Sys_call::DISABLE_BLOCKING` (bit value outside the excerpt), kept as a Bool. -/
structure SysCallArgs where
  pt_sel : Nat
  disable_blocking : Bool

/-- `Ec::sys_call` (syscall.cpp lines 120-147). -/
def sys_call (s : Kstate) (r : SysCallArgs) : Kstate × Kont :=
  match capability_cast .pt 0 (s.caps r.pt_sel) with
  | none => (s, .finish .BAD_CAP)
  | some ptId =>
    let pt := s.pts ptId
    if s.curCpu ≠ (s.ecs pt.ec).cpu then (s, .finish .BAD_CPU)
    else if (s.ecs pt.ec).cont = .nil then
      let s₁ := updEc s s.curEc (fun e => { e with cont := .ret_user_sysexit })
      let s₂ := set_partner s₁ pt.ec
      let s₃ := updEc s₂ pt.ec
        (fun e => { e with cont := .recv_user, regs_pt := pt.id, regs_ip := pt.ip })
      (s₃, .switchTo pt.ec)
    else if r.disable_blocking then (s, .finish .COM_TIM)
    else (s, .helpThenFinish pt.ec .COM_TIM)

/-- Actions of `Ec::handle_hazard` (ec.cpp lines 88-117). -/
inductive HzAction
  | rcuQuiet
  | schedule
  | deliverRecall
  | deliverStep
deriving DecidableEq

/-- `Ec::handle_hazard` as the sequence of serviced actions.  `Rcu::quiet`
returns and the scan continues; `Sc::schedule` and the two `send_msg`
deliveries do not return, so at most one of them ends the list, in the order
the code tests the bits. -/
def handle_hazard (h : Hazards) : List HzAction :=
  (if h.rcu then [HzAction.rcuQuiet] else []) ++
  (if h.sched then [HzAction.schedule]
   else if h.rcl then [HzAction.deliverRecall]
   else if h.stp then [HzAction.deliverStep]
   else [])

/-- `Sys_ec_ctrl` operations (only RECALL is implemented in the excerpt). -/
inductive EcCtrlOp
  | recall
  | otherOp
deriving DecidableEq

structure EcCtrlArgs where
  op : EcCtrlOp
  ec_sel : Nat

/-- `Ec::sys_ec_ctrl` (syscall.cpp lines 600-628): RECALL sets HZD_RECALL on
the target and sends a reschedule IPI only when the hazard was not already
pending, the target is on another CPU and is the EC currently running there. -/
def sys_ec_ctrl (s : Kstate) (r : EcCtrlArgs) : Kstate × Kont × List Event :=
  match r.op with
  | .recall =>
    match capability_cast .ec PERM_EC_CTRL (s.caps r.ec_sel) with
    | none => (s, .finish .BAD_CAP, [])
    | some ecId =>
      if (s.ecs ecId).hzd.rcl = false then
        let s₁ := updEc s ecId (fun e => { e with hzd := { e.hzd with rcl := true } })
        if s.curCpu ≠ (s.ecs ecId).cpu ∧ s.remote (s.ecs ecId).cpu = some ecId then
          (s₁, .finish .SUCCESS, [Event.ipiRke (s.ecs ecId).cpu])
        else (s₁, .finish .SUCCESS, [])
      else (s, .finish .SUCCESS, [])
  | .otherOp => (s, .finish .BAD_PAR, [])

/-- Modelled from the spec: `Space_obj::insert_root` "installs a capability at
a well-known selector for a new object"; it fails (syscall.cpp "Non-NULL CAP")
when the selector is already populated. -/
def insert_root (s : Kstate) (sel : Nat) (tag : CapTag) (prm : Nat) (objId : Nat) :
    Option Kstate :=
  if s.caps sel = none then
    some { s with caps := fun j => if j = sel then some ⟨tag, prm, objId⟩ else s.caps j }
  else none

/-- `Sys_create_ec` arguments. -/
structure CreateEcArgs where
  sel : Nat
  pd : Nat
  cpu : Nat
  user_page : Nat
  esp : Nat
  evt : Nat
  flag_glb : Bool
  is_vcpu : Bool
  use_apic_access_page : Bool
  map_user_page_in_owner : Bool

/-- The EC object built by the `Ec` constructor (ec.cpp lines 49-83):
continuation `send_msg<ret_user_iret>` for a global EC (`flags & 1`), null for
a local one; `glb = !!f`; `regs.dst_portal = EXC_STARTUP`. -/
def mkNewEc (r : CreateEcArgs) : EC :=
  { cont := if r.flag_glb then .send_msg_iret else .nil
    partner := none
    rcap := none
    cpu := r.cpu
    glb := r.flag_glb
    evt := r.evt
    hzd := ⟨false, false, false, false, false⟩
    regs_pt := 0
    regs_ip := 0
    regs_mtd := 0
    regs_dst_portal := EXC_STARTUP }

/-- `Ec::sys_create_ec` (syscall.cpp lines 269-312), checks in code order:
CPU online, VCPU feature, PD capability with PERM_OBJ_CREATION, user page
below USER_ADDR and page-aligned; then allocation and root insertion (a failed
insertion deletes the EC again, leaving the state unchanged). -/
def sys_create_ec (s : Kstate) (r : CreateEcArgs) : Kstate × Kont :=
  if s.cpuOnline r.cpu = false then (s, .finish .BAD_CPU)
  else if r.is_vcpu && !s.featVMX then (s, .finish .BAD_FTR)
  else
    match capability_cast .pd PERM_OBJ_CREATION (s.caps r.pd) with
    | none => (s, .finish .BAD_CAP)
    | some _ =>
      if USER_ADDR ≤ r.user_page ∨ r.user_page &&& PAGE_MASK ≠ 0 then (s, .finish .BAD_PAR)
      else
        let newId := s.nextId
        let s₁ : Kstate :=
          { s with
            ecs := fun j => if j = newId then mkNewEc r else s.ecs j
            nextId := newId + 1 }
        match insert_root s₁ r.sel .ec EC_PERM_ALL newId with
        | none => (s, .finish .BAD_CAP)
        | some s₂ => (s₂, .finish .SUCCESS)

/-- `Sys_create_pd` arguments. -/
structure CreatePdArgs where
  sel : Nat
  pd : Nat
  is_passthrough : Bool

/-- `Ec::sys_create_pd` (syscall.cpp lines 240-267): the new PD's passthrough
flag is `r->is_passthrough() and parent_pd->is_passthrough`; the new PD
records the PD named by `r->pd()` as the one it was created from (the
delegation donor).  The initial `del_crd` delegation concerns the MDB only and
does not touch any passthrough flag. -/
def sys_create_pd (s : Kstate) (r : CreatePdArgs) : Kstate × Kont :=
  match capability_cast .pd PERM_OBJ_CREATION (s.caps r.pd) with
  | none => (s, .finish .BAD_CAP)
  | some parentId =>
    let newId := s.nextId
    let s₁ : Kstate :=
      { s with
        pdPass := fun j => if j = newId then r.is_passthrough && s.pdPass parentId else s.pdPass j
        pdParent := fun j => if j = newId then some parentId else s.pdParent j
        nextId := newId + 1 }
    match insert_root s₁ r.sel .pd (capPrm (s.caps r.pd)) newId with
    | none => (s, .finish .BAD_CAP)
    | some s₂ => (s₂, .finish .SUCCESS)

/-- `Sys_pd_ctrl_msr_access` arguments. -/
structure MsrAccessArgs where
  msr_index : Nat
  msr_value : Nat
  is_write : Bool

/-- `Ec::sys_pd_ctrl_msr_access` (syscall.cpp lines 553-577): passthrough
gate, then the external `Msr::user_write`/`user_read` (success abstracted by
`msrOk`). -/
def sys_pd_ctrl_msr_access (s : Kstate) (r : MsrAccessArgs) : Kstate × Kont × List Event :=
  if s.pdPass s.curPd = false then (s, .finish .BAD_CAP, [])
  else if r.is_write then
    (s, .finish (if s.msrOk then .SUCCESS else .BAD_PAR), [Event.msrWrite r.msr_index r.msr_value])
  else
    (s, .finish (if s.msrOk then .SUCCESS else .BAD_PAR), [Event.msrRead r.msr_index])

/-- `Sys_machine_ctrl` operations. -/
inductive MachineOp
  | suspendOp
  | update_microcode
deriving DecidableEq

structure MachineCtrlArgs where
  op : MachineOp
  size : Nat
  addr : Nat

/-- `Hpt::remap_guaranteed_size` (value outside the excerpt; no claim depends
on it). -/
def remap_guaranteed_size : Nat := 2 ^ 21

/-- `Ec::sys_machine_ctrl_suspend` (syscall.cpp lines 793-807): park the
continuation on `sys_finish<SUCCESS>` and call the external
`Suspend::suspend`; reaching the end means the suspend failed (BAD_PAR). -/
def sys_machine_ctrl_suspend (s : Kstate) : Kstate × Kont × List Event :=
  (updEc s s.curEc (fun e => { e with cont := .sysFinish .SUCCESS false }),
   .finish .BAD_PAR, [Event.machineSuspend])

/-- `Ec::sys_machine_ctrl_update_microcode` (syscall.cpp lines 809-831): size
check, then the external `Msr::write_safe(IA32_BIOS_UPDT_TRIG, ...)`. -/
def sys_machine_ctrl_update_microcode (s : Kstate) (size addr : Nat) :
    Kstate × Kont × List Event :=
  if remap_guaranteed_size < size then (s, .finish .BAD_PAR, [])
  else (s, .finish .SUCCESS, [Event.microcodeUpdate addr])

/-- `Ec::sys_machine_ctrl` (syscall.cpp lines 773-791): passthrough gate, then
dispatch. -/
def sys_machine_ctrl (s : Kstate) (r : MachineCtrlArgs) : Kstate × Kont × List Event :=
  if s.pdPass s.curPd = false then (s, .finish .BAD_CAP, [])
  else
    match r.op with
    | .suspendOp => sys_machine_ctrl_suspend s
    | .update_microcode => sys_machine_ctrl_update_microcode s r.size r.addr

/-- `Ec::sys_irq_ctrl` (syscall.cpp lines 833-861): passthrough gate, then
dispatch to the sub-operation handlers (whose bodies the passthrough claims do
not observe). -/
def sys_irq_ctrl (s : Kstate) (op : IrqOp) : Kstate × Kont × List Event :=
  if s.pdPass s.curPd = false then (s, .finish .BAD_CAP, [])
  else (s, .irqDispatch op, [])

/-- One `sys_create_pd` invocation, as a step relation on kernel states. -/
inductive PdCreate : Kstate → Kstate → Prop
  | step (s : Kstate) (r : CreatePdArgs) : PdCreate s (sys_create_pd s r).1

/-- Well-formedness of the PD world: ids at or above `nextId` are unused
(non-passthrough, no creation parent), creation links point below `nextId`,
a passthrough PD's creation parent is passthrough, and capabilities reference
existing objects. -/
def PdWorldInv (s : Kstate) : Prop :=
  (∀ i, s.nextId ≤ i → s.pdPass i = false) ∧
  (∀ i p, s.pdParent i = some p → i < s.nextId ∧ p < s.nextId) ∧
  (∀ i p, s.pdParent i = some p → s.pdPass i = true → s.pdPass p = true) ∧
  (∀ sel c, s.caps sel = some c → c.obj < s.nextId)

/-- `y` was created, through a chain of `sys_create_pd` invocations, from `x`
(in state `s`): the reflexive-transitive closure of the creation-parent link. -/
def CreatedFrom (s : Kstate) (x y : Nat) : Prop :=
  Relation.ReflTransGen (fun a b => s.pdParent b = some a) x y

/-! ## ACPI DMAR table parsing (src/acpi_dmar.cpp) -/

/-- Remapping-structure kinds of the DMAR table. -/
inductive AcpiRemap
  | dmarUnit | rmrr | otherRemap
deriving DecidableEq

/-- The state `Acpi_table_dmar::parse` could touch: the `Hip::FEAT_IOMMU`
feature bit and whether `Dmar::enable` ran. -/
structure AcpiState where
  featIommu : Bool
  dmarEnabled : Bool
deriving DecidableEq

inductive AcpiAction
  | remapParsed (r : AcpiRemap)
  | dmarEnable
  | setFeatIommu
deriving DecidableEq

/-- `Acpi_table_dmar::parse` (acpi_dmar.cpp lines 88-109): the body starts
with `if (true) return;`, so the remap loop, `Dmar::enable` and
`Hip::set_feature(FEAT_IOMMU)` below it are dead code. -/
def Acpi_table_dmar_parse (s : AcpiState) (remaps : List AcpiRemap) :
    AcpiState × List AcpiAction :=
  if true then (s, [])
  else
    ({ s with dmarEnabled := true, featIommu := true },
     (remaps.map AcpiAction.remapParsed) ++ [AcpiAction.dmarEnable, AcpiAction.setFeatIommu])

/-! ## Concrete states used by the witnesses and counterexamples -/

/-- A quiescent EC used as the default table entry of witness states. -/
def ec0 : EC :=
  { cont := .ret_user_sysexit, partner := none, rcap := none, cpu := 0, glb := true,
    evt := 0, hzd := ⟨false, false, false, false, false⟩, regs_pt := 0, regs_ip := 0,
    regs_mtd := 0, regs_dst_portal := 0 }

/-- Witness state: EC 1 is a free local EC on CPU 0, portal 2 binds it with
ip 77 and id 9, selector 4 holds the PT capability; EC 0 is current. -/
def w1 : Kstate :=
  { ecs := fun i => if i = 1 then
      { ec0 with cont := .nil, glb := false, cpu := 0 } else ec0
    pts := fun _ => { ec := 1, ip := 77, id := 9, mtd := 5 }
    caps := fun sel => if sel = 4 then some ⟨.pt, 0, 2⟩ else none
    pdPass := fun _ => false
    pdParent := fun _ => none
    curEc := 0
    curPd := 0
    curCpu := 0
    remote := fun _ => none
    cpuOnline := fun _ => true
    featVMX := true
    msrOk := true
    nextId := 2 }

/-- Witness state for the exception paths: like `w1` but the current EC 0 has
event base 16 and pending portal (vector) 3, and selector 19 = 16 + 3 holds
the PT capability; EC 5 is a caller blocked in `ret_user_sysexit` recorded in
EC 0's rcap. -/
def w2 : Kstate :=
  { w1 with
    ecs := fun i =>
      if i = 0 then { ec0 with evt := 16, regs_dst_portal := 3, glb := false, rcap := some 5 }
      else if i = 1 then { ec0 with cont := .nil, glb := false, cpu := 0 }
      else ec0
    caps := fun sel => if sel = 19 then some ⟨.pt, 0, 2⟩ else none }

/-- Like `w2` but with no portal capability at all: exception delivery must
kill the current EC. -/
def w3 : Kstate :=
  { w2 with caps := fun _ => none }

/-- State for the busy-server call: the server EC 1 has a pending
continuation. -/
def w5 : Kstate :=
  { w1 with ecs := fun i => if i = 1 then
      { ec0 with cont := .recv_user, glb := false, cpu := 0 } else ec0 }

/-- State for `sys_create_ec` failures: CPU 7 is offline, selector 4 holds a
PD capability with the creation permission, selector 6 an SM capability. -/
def w6 : Kstate :=
  { w1 with
    caps := fun sel =>
      if sel = 4 then some ⟨.pd, 3, 0⟩ else if sel = 6 then some ⟨.sm, 3, 1⟩ else none
    cpuOnline := fun c => c ≠ 7 }

/-- State for the recall counterexample and witness: selector 3 holds an EC
capability with EC_CTRL permission for EC 1, which sits on CPU 1 (the caller
runs on CPU 0) and is not the EC currently running there. -/
def w8 : Kstate :=
  { w1 with
    ecs := fun i => if i = 1 then { ec0 with cpu := 1, glb := false } else ec0
    caps := fun sel => if sel = 3 then some ⟨.ec, 1, 1⟩ else none }

/-- State for the passthrough gates: current PD 0 has no passthrough, PD
capability for a passthrough parent at selector 2. -/
def w10 : Kstate :=
  { w1 with
    caps := fun sel => if sel = 2 then some ⟨.pd, 1, 1⟩ else none
    pdPass := fun i => i = 1 }

/-! ## Conclusion predicates of the composite claims -/

/-- Effects of the `sys_call` fast path on caller and server, as the claim
states them: caller continuation `ret_user_sysexit`, partner set to the
server; server continuation `recv_user`, reverse capability set to the caller,
portal id and ip loaded into the server's register frame; control switches to
the server. -/
def SysCallFastConcl (s : Kstate) (r : SysCallArgs) (ptId : Nat) : Prop :=
  (sys_call s r).2 = Kont.switchTo (s.pts ptId).ec ∧
  ((sys_call s r).1.ecs s.curEc).cont = .ret_user_sysexit ∧
  ((sys_call s r).1.ecs s.curEc).partner = some (s.pts ptId).ec ∧
  ((sys_call s r).1.ecs (s.pts ptId).ec).cont = .recv_user ∧
  ((sys_call s r).1.ecs (s.pts ptId).ec).rcap = some s.curEc ∧
  ((sys_call s r).1.ecs (s.pts ptId).ec).regs_pt = (s.pts ptId).id ∧
  ((sys_call s r).1.ecs (s.pts ptId).ec).regs_ip = (s.pts ptId).ip

/-- Effects of successful exception-portal delivery (`send_msg` fast path from
`handle_exc`): control switches to the portal's server EC, whose continuation
becomes `recv_kern` with the portal id and ip loaded, while the faulting EC
parks on `ret_user_iret` with the portal's message-transfer descriptor. -/
def ExcDeliverConcl (s : Kstate) (ptId : Nat) : Prop :=
  (handle_exc_fallthrough s true).2 = Kont.switchTo (s.pts ptId).ec ∧
  ((handle_exc_fallthrough s true).1.ecs (s.pts ptId).ec).cont = .recv_kern ∧
  ((handle_exc_fallthrough s true).1.ecs (s.pts ptId).ec).rcap = some s.curEc ∧
  ((handle_exc_fallthrough s true).1.ecs (s.pts ptId).ec).regs_pt = (s.pts ptId).id ∧
  ((handle_exc_fallthrough s true).1.ecs (s.pts ptId).ec).regs_ip = (s.pts ptId).ip ∧
  ((handle_exc_fallthrough s true).1.ecs s.curEc).cont = .ret_user_iret ∧
  ((handle_exc_fallthrough s true).1.ecs s.curEc).regs_mtd = (s.pts ptId).mtd

/-- Effects of failed exception-portal delivery: the faulting EC is killed
(continuation `dead`), and a caller recorded in its rcap that was blocked in
`ret_user_sysexit` is redirected to finish with COM_ABT. -/
def ExcKillConcl (s : Kstate) : Prop :=
  ((handle_exc_fallthrough s true).1.ecs s.curEc).cont = .dead ∧
  (∀ rc, (s.ecs s.curEc).rcap = some rc → rc ≠ s.curEc →
     (s.ecs rc).cont = .ret_user_sysexit →
     ((handle_exc_fallthrough s true).1.ecs rc).cont = .sysFinish .COM_ABT false)

/-- Effects of `sys_ec_ctrl RECALL` on a valid EC capability: success status,
HZD_RECALL set on the target, a reschedule IPI exactly when the hazard was not
already pending and the target is the EC currently running on another CPU, and
delivery of the EXC_RECALL portal at the target's next return-to-user (unless
a schedule hazard is also pending). -/
def RecallConcl (s : Kstate) (sel ecId : Nat) : Prop :=
  (sys_ec_ctrl s ⟨.recall, sel⟩).2.1 = Kont.finish .SUCCESS ∧
  ((sys_ec_ctrl s ⟨.recall, sel⟩).1.ecs ecId).hzd.rcl = true ∧
  (sys_ec_ctrl s ⟨.recall, sel⟩).2.2 =
    (if (s.ecs ecId).hzd.rcl = false ∧ s.curCpu ≠ (s.ecs ecId).cpu ∧
        s.remote (s.ecs ecId).cpu = some ecId
     then [Event.ipiRke (s.ecs ecId).cpu] else []) ∧
  (∀ cpuH, (iretSample cpuH ((sys_ec_ctrl s ⟨.recall, sel⟩).1.ecs ecId).hzd).sched = false →
     HzAction.deliverRecall ∈
       handle_hazard (iretSample cpuH ((sys_ec_ctrl s ⟨.recall, sel⟩).1.ecs ecId).hzd))

/-! ### Properties of `max_order` and the greedy decomposition -/

theorem maxOrderAux_align (a s : Nat) : ∀ f, a % 2 ^ maxOrderAux a s f = 0 := by
  intro f
  induction f with
  | zero => simp [maxOrderAux, Nat.mod_one]
  | succ f ih =>
    unfold maxOrderAux
    by_cases h : a % 2 ^ (f + 1) = 0 ∧ 2 ^ (f + 1) ≤ s
    · rw [if_pos h]; exact h.1
    · rw [if_neg h]; exact ih

theorem maxOrderAux_fit (a s : Nat) (hs : 0 < s) : ∀ f, 2 ^ maxOrderAux a s f ≤ s := by
  intro f
  induction f with
  | zero => simpa [maxOrderAux] using hs
  | succ f ih =>
    unfold maxOrderAux
    by_cases h : a % 2 ^ (f + 1) = 0 ∧ 2 ^ (f + 1) ≤ s
    · rw [if_pos h]; exact h.2
    · rw [if_neg h]; exact ih

theorem maxOrderAux_max (a s : Nat) :
    ∀ f j, j ≤ f → a % 2 ^ j = 0 → 2 ^ j ≤ s → j ≤ maxOrderAux a s f := by
  intro f
  induction f with
  | zero => intro j hj _ _; omega
  | succ f ih =>
    intro j hj ha hs
    unfold maxOrderAux
    by_cases h : a % 2 ^ (f + 1) = 0 ∧ 2 ^ (f + 1) ≤ s
    · rw [if_pos h]; exact hj
    · rw [if_neg h]
      rcases Nat.lt_or_ge j (f + 1) with hlt | hge
      · exact ih j (by omega) ha hs
      · have hj1 : j = f + 1 := by omega
        subst hj1
        exact absurd ⟨ha, hs⟩ h

theorem max_order_align (a s : Nat) : a % 2 ^ max_order a s = 0 :=
  maxOrderAux_align a s s

theorem max_order_fit (a s : Nat) (hs : 0 < s) : 2 ^ max_order a s ≤ s :=
  maxOrderAux_fit a s hs s

theorem max_order_max (a s j : Nat) (ha : a % 2 ^ j = 0) (hj : 2 ^ j ≤ s) :
    j ≤ max_order a s := by
  have hjs : j ≤ s := le_trans (le_of_lt (Nat.lt_two_pow j)) hj
  exact maxOrderAux_max a s s j hjs ha hj

/-- With fuel at least the size, the `addreg` loop produces exactly the chunk
nodes of `decompAux` (in reverse, since each insertion prepends) on top of the
initial tree. -/
theorem addregAux_eq_decompAux (attr ty : Nat) :
    ∀ f a s t, s ≤ f →
      addregAux attr ty f a s t
        = ((decompAux f a s).map (mdbOf attr ty)).reverse ++ t := by
  intro f
  induction f with
  | zero =>
    intro a s t hs
    have : s = 0 := by omega
    subst this
    simp [addregAux, decompAux]
  | succ f ih =>
    intro a s t hs
    by_cases h0 : s = 0
    · subst h0; simp [addregAux, decompAux]
    · have hpos : 0 < s := Nat.pos_of_ne_zero h0
      have hfit : 2 ^ max_order a s ≤ s := max_order_fit a s hpos
      have hpow : 0 < 2 ^ max_order a s := Nat.pos_pow_of_pos _ (by omega)
      rw [show addregAux attr ty (f + 1) a s t
            = addregAux attr ty f (a + 2 ^ max_order a s) (s - 2 ^ max_order a s)
                (⟨a, max_order a s, attr, ty⟩ :: t) by
            simp [addregAux, h0],
          show decompAux (f + 1) a s
            = (a, max_order a s) :: decompAux f (a + 2 ^ max_order a s) (s - 2 ^ max_order a s) by
            simp [decompAux, h0]]
      rw [ih _ _ _ (by omega)]
      simp [mdbOf]

theorem addreg_eq_decomp (a s attr ty : Nat) (t : List Mdb) :
    addreg a s attr ty t = ((decomp a s).map (mdbOf attr ty)).reverse ++ t :=
  addregAux_eq_decompAux attr ty s a s t (le_refl s)

/-- The chunk list of the `addreg` loop is a greedy decomposition. -/
theorem greedy_decompAux : ∀ f a s, s ≤ f → GreedyDecomp a s (decompAux f a s) := by
  intro f
  induction f with
  | zero =>
    intro a s hs
    have : s = 0 := by omega
    subst this
    exact GreedyDecomp.nil a
  | succ f ih =>
    intro a s hs
    by_cases h0 : s = 0
    · subst h0
      simpa [decompAux] using GreedyDecomp.nil a
    · have hpos : 0 < s := Nat.pos_of_ne_zero h0
      have hfit : 2 ^ max_order a s ≤ s := max_order_fit a s hpos
      have hpow : 0 < 2 ^ max_order a s := Nat.pos_pow_of_pos _ (by omega)
      rw [show decompAux (f + 1) a s
            = (a, max_order a s) :: decompAux f (a + 2 ^ max_order a s) (s - 2 ^ max_order a s) by
            simp [decompAux, h0]]
      exact GreedyDecomp.cons a s (max_order a s) _
        (max_order_align a s) hfit (fun j hja hjs => max_order_max a s j hja hjs)
        (ih _ _ (by omega))

theorem greedy_decomp (a s : Nat) : GreedyDecomp a s (decomp a s) :=
  greedy_decompAux s a s (le_refl s)

/-! ## Small evaluation lemmas -/

theorem updEc_ecs (s : Kstate) (i : Nat) (f : EC → EC) (j : Nat) :
    (updEc s i f).ecs j = if j = i then f (s.ecs j) else s.ecs j := rfl

theorem updEc_curEc (s : Kstate) (i : Nat) (f : EC → EC) :
    (updEc s i f).curEc = s.curEc := rfl

theorem updEc_pts (s : Kstate) (i : Nat) (f : EC → EC) :
    (updEc s i f).pts = s.pts := rfl

theorem updEc_caps (s : Kstate) (i : Nat) (f : EC → EC) :
    (updEc s i f).caps = s.caps := rfl

theorem updEc_curCpu (s : Kstate) (i : Nat) (f : EC → EC) :
    (updEc s i f).curCpu = s.curCpu := rfl

theorem max_order_one (a : Nat) : max_order a 1 = 0 := by
  have h : ¬ (a % 2 ^ (0 + 1) = 0 ∧ 2 ^ (0 + 1) ≤ 1) := by
    rintro ⟨-, h2⟩
    norm_num at h2
  simp [max_order, maxOrderAux, h]

/-! ## Claims -/

/-- Claim C9: `Acpi_table_dmar::parse` returns immediately without parsing any
remap structure, without calling `Dmar::enable` and without setting
`FEAT_IOMMU`; the state is unchanged and no action is performed. -/
theorem c9_dmar_parse_noop (s : AcpiState) (remaps : List AcpiRemap) :
    Acpi_table_dmar_parse s remaps = (s, []) := rfl

/-- Claim C3, counterexample: on the empty tree, `addreg` of the two-page
range starting at page 0 followed by `delreg` on that range's address does
not restore the tree — the second page survives as a fresh node, so the
resulting node set differs from the original. -/
theorem c3_counterexample :
    delreg (0 <<< PAGE_BITS) (addreg 0 2 7 1 ([] : List Mdb)) ≠ [] ∧
    Mdb.mk 1 0 7 1 ∈ delreg (0 <<< PAGE_BITS) (addreg 0 2 7 1 ([] : List Mdb)) := by
  decide

/-- Claim C3 (amended): for a single-page range, `addreg` followed by `delreg`
on the range's address restores the tree exactly. -/
theorem c3_addreg_delreg_single_page (t : List Mdb) (a attr ty : Nat) :
    delreg (a <<< PAGE_BITS) (addreg a 1 attr ty t) = t := by
  have haddr : (a <<< PAGE_BITS) >>> PAGE_BITS = a := by
    rw [Nat.shiftLeft_eq, Nat.shiftRight_eq_div_pow]
    exact Nat.mul_div_cancel a (Nat.pos_pow_of_pos PAGE_BITS (by omega))
  have h1 : addreg a 1 attr ty t = ⟨a, 0, attr, ty⟩ :: t := by
    show addregAux attr ty 1 a 1 t = _
    simp [addregAux, max_order_one]
  rw [h1]
  have hcov : mdbCovb ⟨a, 0, attr, ty⟩ a = true := by
    simp [mdbCovb]
  simp only [delreg, haddr, treeLookup, List.find?, hcov, List.erase_cons_head]
  have h2 : a - a = 0 := Nat.sub_self a
  have h3 : a + 1 <<< (0 : Nat) - (a + 1) = 0 := Nat.sub_self (a + 1)
  rw [h2, h3]
  rfl

/-- Claim C4: `delreg(addr)` on a tree whose lookup finds node `n` covering
`addr`'s page removes exactly that node and re-inserts the greedy
power-of-two decompositions of the two flanking sub-ranges, with `n`'s
attributes and type. -/
theorem c4_delreg_greedy (t : List Mdb) (addr : Nat) (n : Mdb)
    (h : treeLookup t (addr >>> PAGE_BITS) = some n) :
    DelregConcl t addr n := by
  have h' : List.find? (fun m => mdbCovb m (addr >>> PAGE_BITS)) t = some n := h
  have hmem : n ∈ t := List.mem_of_find?_eq_some h'
  have hcovb := List.find?_some h'
  have hcov : n.node_base ≤ addr >>> PAGE_BITS ∧
      addr >>> PAGE_BITS < n.node_base + (1 <<< n.node_order) := by
    simpa [mdbCovb] using hcovb
  refine ⟨hmem, hcov.1, hcov.2, ?_, greedy_decomp _ _, greedy_decomp _ _⟩
  simp only [delreg, h]
  rw [addreg_eq_decomp, addreg_eq_decomp]
  simp [List.append_assoc]

theorem c4_witness :
    treeLookup [Mdb.mk 0 2 5 3] (4096 >>> PAGE_BITS) = some (Mdb.mk 0 2 5 3) ∧
    DelregConcl [Mdb.mk 0 2 5 3] 4096 (Mdb.mk 0 2 5 3) :=
  ⟨by decide, c4_delreg_greedy [Mdb.mk 0 2 5 3] 4096 (Mdb.mk 0 2 5 3) (by decide)⟩

/-- Claim C5: `sys_call` with DISABLE_BLOCKING through a valid same-CPU portal
whose server EC has a pending continuation returns COM_TIM directly — no help
donation is attempted and the state is unchanged. -/
theorem c5_nonblocking_busy_com_tim (s : Kstate) (r : SysCallArgs) (ptId : Nat)
    (hcap : capability_cast .pt 0 (s.caps r.pt_sel) = some ptId)
    (hcpu : s.curCpu = (s.ecs (s.pts ptId).ec).cpu)
    (hbusy : (s.ecs (s.pts ptId).ec).cont ≠ .nil)
    (hflag : r.disable_blocking = true) :
    sys_call s r = (s, .finish .COM_TIM) := by
  simp only [sys_call, hcap]
  rw [if_neg (not_not_intro hcpu), if_neg hbusy, if_pos hflag]

theorem c5_witness :
    capability_cast .pt 0 (w5.caps 4) = some 2 ∧
    w5.curCpu = (w5.ecs (w5.pts 2).ec).cpu ∧
    (w5.ecs (w5.pts 2).ec).cont ≠ .nil ∧
    sys_call w5 ⟨4, true⟩ = (w5, .finish .COM_TIM) :=
  ⟨by decide, by decide, by decide,
   c5_nonblocking_busy_com_tim w5 ⟨4, true⟩ 2 (by decide) (by decide) (by decide) rfl⟩

/-- Claim C1: `sys_call` through a valid PT capability whose server EC is on
the caller's CPU and has no pending continuation sets the caller's cont to
`ret_user_sysexit` and its partner to the server, sets the server's cont to
`recv_user` and its rcap to the caller, loads the portal id and ip into the
server's register frame, and switches to the server. -/
theorem c1_sys_call_fast_path (s : Kstate) (r : SysCallArgs) (ptId : Nat)
    (hcap : capability_cast .pt 0 (s.caps r.pt_sel) = some ptId)
    (hcpu : s.curCpu = (s.ecs (s.pts ptId).ec).cpu)
    (hfree : (s.ecs (s.pts ptId).ec).cont = .nil)
    (hne : (s.pts ptId).ec ≠ s.curEc) :
    SysCallFastConcl s r ptId := by
  have hne' : s.curEc ≠ (s.pts ptId).ec := Ne.symm hne
  unfold SysCallFastConcl
  simp only [sys_call, hcap]
  rw [if_neg (not_not_intro hcpu), if_pos hfree]
  simp [set_partner, updEc, hne, hne']

theorem c1_witness :
    capability_cast .pt 0 (w1.caps 4) = some 2 ∧
    w1.curCpu = (w1.ecs (w1.pts 2).ec).cpu ∧
    (w1.ecs (w1.pts 2).ec).cont = .nil ∧
    (w1.pts 2).ec ≠ w1.curEc ∧
    SysCallFastConcl w1 ⟨4, false⟩ 2 :=
  ⟨by decide, by decide, by decide, by decide,
   c1_sys_call_fast_path w1 ⟨4, false⟩ 2 (by decide) (by decide) (by decide) (by decide)⟩

/-- Claim C6: `sys_create_ec` parameter validation — an offline CPU yields
BAD_CPU; with CPU and feature checks passing, a selector that does not name a
PD capability with the object-creation permission yields BAD_CAP; with a valid
PD capability, a user page that is not below USER_ADDR or not page-aligned
yields BAD_PAR; in each case the state is returned unchanged (no EC is
created). -/
theorem c6_create_ec_validation (s : Kstate) (r : CreateEcArgs) :
    (s.cpuOnline r.cpu = false → sys_create_ec s r = (s, .finish .BAD_CPU)) ∧
    (s.cpuOnline r.cpu = true → (r.is_vcpu && !s.featVMX) = false →
       capability_cast .pd PERM_OBJ_CREATION (s.caps r.pd) = none →
       sys_create_ec s r = (s, .finish .BAD_CAP)) ∧
    (∀ pdId, s.cpuOnline r.cpu = true → (r.is_vcpu && !s.featVMX) = false →
       capability_cast .pd PERM_OBJ_CREATION (s.caps r.pd) = some pdId →
       (USER_ADDR ≤ r.user_page ∨ r.user_page &&& PAGE_MASK ≠ 0) →
       sys_create_ec s r = (s, .finish .BAD_PAR)) := by
  refine ⟨fun h1 => ?_, fun h1 h2 h3 => ?_, fun pdId h1 h2 h3 h4 => ?_⟩
  · simp [sys_create_ec, h1]
  · simp [sys_create_ec, h1, h2, h3]
  · simp [sys_create_ec, h1, h2, h3, h4]

theorem c6_witness :
    sys_create_ec w6 ⟨5, 4, 7, 0, 0, 0, true, false, false, false⟩ = (w6, .finish .BAD_CPU) ∧
    sys_create_ec w6 ⟨5, 6, 0, 0, 0, 0, true, false, false, false⟩ = (w6, .finish .BAD_CAP) ∧
    sys_create_ec w6 ⟨5, 4, 0, 5, 0, 0, true, false, false, false⟩ = (w6, .finish .BAD_PAR) :=
  ⟨(c6_create_ec_validation w6 ⟨5, 4, 7, 0, 0, 0, true, false, false, false⟩).1 (by decide),
   (c6_create_ec_validation w6 ⟨5, 6, 0, 0, 0, 0, true, false, false, false⟩).2.1
     (by decide) (by decide) (by decide),
   (c6_create_ec_validation w6 ⟨5, 4, 0, 5, 0, 0, true, false, false, false⟩).2.2 0
     (by decide) (by decide) (by decide) (Or.inr (by decide))⟩

/-- Claim C7: `handle_hazard` services pending hazards in the fixed precedence
RCU, then SCHED, then RECALL, then STEP (the latter three terminate the pass,
so at most one of them is serviced); the iret return path does not sample the
DS_ES hazard while the sysexit path does. -/
theorem c7_hazard_precedence (cpuH ecH h : Hazards) :
    (h.rcu = true → (handle_hazard h).head? = some HzAction.rcuQuiet) ∧
    (h.sched = true → HzAction.schedule ∈ handle_hazard h ∧
       HzAction.deliverRecall ∉ handle_hazard h ∧ HzAction.deliverStep ∉ handle_hazard h) ∧
    (h.sched = false → h.rcl = true → HzAction.deliverRecall ∈ handle_hazard h ∧
       HzAction.deliverStep ∉ handle_hazard h) ∧
    (h.sched = false → h.rcl = false → h.stp = true →
       HzAction.deliverStep ∈ handle_hazard h) ∧
    (iretSample cpuH ecH).ds_es = false ∧
    (sysexitSample cpuH ecH).ds_es = (cpuH.ds_es || ecH.ds_es) := by
  obtain ⟨hr, hs, hrc, hst, hd⟩ := h
  refine ⟨?_, ?_, ?_, ?_, rfl, rfl⟩ <;>
    cases hr <;> cases hs <;> cases hrc <;> cases hst <;>
      simp [handle_hazard]

theorem c7_witness :
    (handle_hazard ⟨true, true, true, true, true⟩).head? = some HzAction.rcuQuiet ∧
    HzAction.schedule ∈ handle_hazard ⟨true, true, true, true, true⟩ ∧
    HzAction.deliverRecall ∈ handle_hazard ⟨false, false, true, true, false⟩ ∧
    HzAction.deliverStep ∈ handle_hazard ⟨false, false, false, true, false⟩ ∧
    (iretSample ⟨true, true, true, true, true⟩ ⟨true, true, true, true, true⟩).ds_es = false :=
  ⟨(c7_hazard_precedence ⟨true, true, true, true, true⟩ ⟨true, true, true, true, true⟩
      ⟨true, true, true, true, true⟩).1 rfl,
   ((c7_hazard_precedence ⟨true, true, true, true, true⟩ ⟨true, true, true, true, true⟩
      ⟨true, true, true, true, true⟩).2.1 rfl).1,
   ((c7_hazard_precedence ⟨true, true, true, true, true⟩ ⟨true, true, true, true, true⟩
      ⟨false, false, true, true, false⟩).2.2.1 rfl rfl).1,
   (c7_hazard_precedence ⟨true, true, true, true, true⟩ ⟨true, true, true, true, true⟩
      ⟨false, false, false, true, false⟩).2.2.2.1 rfl rfl rfl,
   (c7_hazard_precedence ⟨true, true, true, true, true⟩ ⟨true, true, true, true, true⟩
      ⟨true, true, true, true, true⟩).2.2.2.2.1⟩

/-! ### Helper lemmas about `reply` and `die` -/

theorem reply_cont (s : Kstate) (c : EcCont) :
    ((reply s c).1.ecs s.curEc).cont = c := by
  by_cases hg : (s.ecs s.curEc).glb = true
  · simp [reply, updEc, hg]
  · cases hrc : (s.ecs s.curEc).rcap with
    | none => simp [reply, updEc, hg, hrc]
    | some ec =>
      by_cases hp : (s.ecs ec).partner = some s.curEc
      · by_cases he : ec = s.curEc
        · subst he
          simp [reply, clr_partner, updEc, hg, hrc, hp]
        · simp [reply, clr_partner, updEc, hg, hrc, hp, he, Ne.symm he]
      · by_cases he : ec = s.curEc
        · subst he
          simp [reply, clr_partner, updEc, hg, hrc, hp]
        · simp [reply, clr_partner, updEc, hg, hrc, hp, he, Ne.symm he]

theorem reply_other_cont (s : Kstate) (c : EcCont) (j : Nat) (hj : j ≠ s.curEc) :
    ((reply s c).1.ecs j).cont = (s.ecs j).cont := by
  by_cases hg : (s.ecs s.curEc).glb = true
  · simp [reply, updEc, hg, hj]
  · cases hrc : (s.ecs s.curEc).rcap with
    | none => simp [reply, updEc, hg, hrc, hj]
    | some ec =>
      by_cases hp : (s.ecs ec).partner = some s.curEc
      · by_cases he : ec = s.curEc
        · subst he
          simp [reply, clr_partner, updEc, hg, hrc, hp, hj]
        · by_cases hje : j = ec
          · subst hje
            simp [reply, clr_partner, updEc, hg, hrc, hp, he, hj, Ne.symm he]
          · simp [reply, clr_partner, updEc, hg, hrc, hp, he, hj, hje, Ne.symm he, Ne.symm hje]
      · by_cases he : ec = s.curEc
        · subst he
          simp [reply, clr_partner, updEc, hg, hrc, hp, hj]
        · simp [reply, clr_partner, updEc, hg, hrc, hp, he, hj, Ne.symm he]

theorem die_dead (s : Kstate) : ((die s).1.ecs s.curEc).cont = .dead := by
  unfold die
  cases hr : (s.ecs s.curEc).rcap with
  | none => exact reply_cont s .dead
  | some r =>
    exact reply_cont (updEc s r fun e =>
      { e with cont := if e.cont = .ret_user_sysexit then .sysFinish .COM_ABT false else .dead })
      .dead

theorem die_abort (s : Kstate) (rc : Nat) (hr : (s.ecs s.curEc).rcap = some rc)
    (hne : rc ≠ s.curEc) (hc : (s.ecs rc).cont = .ret_user_sysexit) :
    ((die s).1.ecs rc).cont = .sysFinish .COM_ABT false := by
  unfold die
  simp only [hr]
  have hne' : rc ≠ (updEc s rc fun e =>
      { e with cont := if e.cont = .ret_user_sysexit
                       then .sysFinish .COM_ABT false else .dead }).curEc := hne
  rw [reply_other_cont _ _ rc hne']
  simp [updEc, hc]

/-- Claim C2: a user exception that no in-kernel handler resolves is delivered
through the portal at the faulting EC's event base plus the exception vector
(held in `regs.dst_portal`); if that portal capability is absent, or its
server EC sits on a different CPU, the faulting EC is killed (continuation
`dead`) and a caller recorded in its rcap that was blocked in
`ret_user_sysexit` is redirected to finish with COM_ABT. -/
theorem c2_user_exc_portal (s : Kstate) :
    (∀ ptId,
       capability_cast .pt 0
           (s.caps ((s.ecs s.curEc).evt + (s.ecs s.curEc).regs_dst_portal)) = some ptId →
       s.curCpu = (s.ecs (s.pts ptId).ec).cpu →
       (s.ecs (s.pts ptId).ec).cont = .nil →
       (s.pts ptId).ec ≠ s.curEc →
       ExcDeliverConcl s ptId) ∧
    ((capability_cast .pt 0
        (s.caps ((s.ecs s.curEc).evt + (s.ecs s.curEc).regs_dst_portal)) = none ∨
      (∃ ptId, capability_cast .pt 0
          (s.caps ((s.ecs s.curEc).evt + (s.ecs s.curEc).regs_dst_portal)) = some ptId ∧
        s.curCpu ≠ (s.ecs (s.pts ptId).ec).cpu)) →
      ExcKillConcl s) := by
  constructor
  · intro ptId hcap hcpu hfree hne
    have hne' : s.curEc ≠ (s.pts ptId).ec := Ne.symm hne
    unfold ExcDeliverConcl handle_exc_fallthrough
    simp only [send_msg, hcap, if_true]
    rw [if_neg (not_not_intro hcpu), if_pos hfree]
    simp [set_partner, updEc, hne, hne']
  · intro hfail
    have key : handle_exc_fallthrough s true = die s := by
      unfold handle_exc_fallthrough send_msg
      rcases hfail with hnone | ⟨ptId, hcap, hcpu⟩
      · simp [hnone]
      · simp [hcap, hcpu]
    unfold ExcKillConcl
    rw [key]
    exact ⟨die_dead s, fun rc hr hne hc => die_abort s rc hr hne hc⟩

theorem c2_witness :
    capability_cast .pt 0
        (w2.caps ((w2.ecs w2.curEc).evt + (w2.ecs w2.curEc).regs_dst_portal)) = some 2 ∧
    ExcDeliverConcl w2 2 ∧
    ExcKillConcl w3 ∧
    ((handle_exc_fallthrough w3 true).1.ecs 5).cont = .sysFinish .COM_ABT false :=
  ⟨by decide,
   (c2_user_exc_portal w2).1 2 (by decide) (by decide) (by decide) (by decide),
   (c2_user_exc_portal w3).2 (Or.inl (by decide)),
   ((c2_user_exc_portal w3).2 (Or.inl (by decide))).2 5 (by decide) (by decide) (by decide)⟩

/-! ### Helper lemmas for recall delivery and PD invariants -/

theorem recall_delivered (hz : Hazards) (hrcl : hz.rcl = true) (cpuH : Hazards)
    (hsched : (iretSample cpuH hz).sched = false) :
    HzAction.deliverRecall ∈ handle_hazard (iretSample cpuH hz) := by
  have h1 : (iretSample cpuH hz).rcl = true := by
    simp [iretSample, hzdOr, hrcl]
  simp [handle_hazard, hsched, h1]

/-- Claim C8, counterexample: EC 1 holds a valid EC capability with the
EC_CTRL permission and sits on CPU 1 while the caller runs on CPU 0, but is
not the EC currently executing on CPU 1 — the RECALL sets HZD_RECALL yet sends
no reschedule IPI, contradicting the claim's unconditional cross-CPU IPI. -/
theorem c8_recall_counterexample :
    capability_cast .ec PERM_EC_CTRL (w8.caps 3) = some 1 ∧
    w8.curCpu ≠ (w8.ecs 1).cpu ∧
    ((sys_ec_ctrl w8 ⟨.recall, 3⟩).1.ecs 1).hzd.rcl = true ∧
    (sys_ec_ctrl w8 ⟨.recall, 3⟩).2.2 = [] := by
  refine ⟨by decide, by decide, ?_, ?_⟩ <;> decide

/-- Claim C8 (amended): `sys_ec_ctrl RECALL` on a valid EC capability with the
EC_CTRL permission succeeds and leaves HZD_RECALL set on the target; the
reschedule IPI is sent exactly when the hazard was not already pending, the
target is on a different CPU, and the target is the EC currently running on
that CPU; with the hazard set and no schedule hazard, the target's next
return-to-user (iret path) delivers the EXC_RECALL portal. -/
theorem c8_recall_amended (s : Kstate) (sel ecId : Nat)
    (hcap : capability_cast .ec PERM_EC_CTRL (s.caps sel) = some ecId) :
    RecallConcl s sel ecId := by
  unfold RecallConcl
  simp only [sys_ec_ctrl, hcap]
  by_cases h1 : (s.ecs ecId).hzd.rcl = false
  · by_cases h2 : s.curCpu ≠ (s.ecs ecId).cpu ∧ s.remote (s.ecs ecId).cpu = some ecId
    · refine ⟨by simp [h1, h2, updEc], by simp [h1, h2, updEc], by simp [h1, h2, updEc], ?_⟩
      intro cpuH hsched
      refine recall_delivered _ ?_ cpuH hsched
      simp only [h1, h2, if_true, if_pos] at *
      simp [h1, h2, updEc]
    · refine ⟨by simp [h1, h2, updEc], by simp [h1, h2, updEc], by simp [h1, h2, updEc], ?_⟩
      intro cpuH hsched
      refine recall_delivered _ ?_ cpuH hsched
      simp [h1, h2, updEc]
  · have h1' : (s.ecs ecId).hzd.rcl = true := by
      revert h1
      cases (s.ecs ecId).hzd.rcl <;> simp
    refine ⟨by simp [h1', updEc], by simp [h1', updEc], by simp [h1', updEc], ?_⟩
    intro cpuH hsched
    refine recall_delivered _ ?_ cpuH hsched
    simp [h1', updEc]

theorem c8_witness :
    capability_cast .ec PERM_EC_CTRL (w8.caps 3) = some 1 ∧ RecallConcl w8 3 1 :=
  ⟨by decide, c8_recall_amended w8 3 1 (by decide)⟩

theorem capability_cast_obj (t : CapTag) (req : Nat) (oc : Option Cap) (pid : Nat)
    (h : capability_cast t req oc = some pid) : ∃ c, oc = some c ∧ c.obj = pid := by
  cases oc with
  | none => simp [capability_cast] at h
  | some c =>
    refine ⟨c, rfl, ?_⟩
    by_cases hc : c.tag = t ∧ c.prm &&& req = req
    · simpa [capability_cast, hc] using h
    · simp [capability_cast, hc] at h

theorem sys_create_pd_preserves_inv (s : Kstate) (r : CreatePdArgs)
    (hi : PdWorldInv s) : PdWorldInv (sys_create_pd s r).1 := by
  obtain ⟨p1, p2, p3, p4⟩ := hi
  cases hc : capability_cast .pd PERM_OBJ_CREATION (s.caps r.pd) with
  | none =>
    simp only [sys_create_pd, hc]
    exact ⟨p1, p2, p3, p4⟩
  | some parentId =>
    obtain ⟨c, hcs, hco⟩ := capability_cast_obj _ _ _ _ hc
    have hplt : parentId < s.nextId := by
      have := p4 r.pd c hcs
      omega
    simp only [sys_create_pd, hc, insert_root]
    by_cases hsel : s.caps r.sel = none
    · rw [if_pos hsel]
      refine ⟨?_, ?_, ?_, ?_⟩
      · intro i hi2
        replace hi2 : s.nextId + 1 ≤ i := hi2
        show (if i = s.nextId then r.is_passthrough && s.pdPass parentId
              else s.pdPass i) = false
        have hne : ¬ (i = s.nextId) := by omega
        rw [if_neg hne]
        exact p1 i (by omega)
      · intro i p hp
        replace hp : (if i = s.nextId then some parentId else s.pdParent i) = some p := hp
        show i < s.nextId + 1 ∧ p < s.nextId + 1
        by_cases hie : i = s.nextId
        · subst hie
          rw [if_pos rfl] at hp
          have hpp : parentId = p := by injection hp
          omega
        · rw [if_neg hie] at hp
          have := p2 i p hp
          omega
      · intro i p hp hpass
        replace hp : (if i = s.nextId then some parentId else s.pdParent i) = some p := hp
        replace hpass : (if i = s.nextId then r.is_passthrough && s.pdPass parentId
                         else s.pdPass i) = true := hpass
        show (if p = s.nextId then r.is_passthrough && s.pdPass parentId
              else s.pdPass p) = true
        by_cases hie : i = s.nextId
        · subst hie
          rw [if_pos rfl] at hp hpass
          have hpp : parentId = p := by injection hp
          subst hpp
          rw [Bool.and_eq_true] at hpass
          have hppass : s.pdPass parentId = true := hpass.2
          have hne2 : ¬ (parentId = s.nextId) := by omega
          rw [if_neg hne2]
          exact hppass
        · rw [if_neg hie] at hp hpass
          have hpt := p3 i p hp hpass
          have hplt2 := (p2 i p hp).2
          have hne2 : ¬ (p = s.nextId) := by omega
          rw [if_neg hne2]
          exact hpt
      · intro sel c' h'
        replace h' : (if sel = r.sel
            then some (Cap.mk .pd (capPrm (s.caps r.pd)) s.nextId)
            else s.caps sel) = some c' := h'
        show c'.obj < s.nextId + 1
        by_cases hse : sel = r.sel
        · subst hse
          rw [if_pos rfl] at h'
          have hcc : Cap.mk .pd (capPrm (s.caps r.pd)) s.nextId = c' := by injection h'
          subst hcc
          exact Nat.lt_succ_self s.nextId
        · rw [if_neg hse] at h'
          have := p4 sel c' h'
          omega
    · rw [if_neg hsel]
      exact ⟨p1, p2, p3, p4⟩

theorem pdCreate_preserves_inv (s s' : Kstate) (hstep : PdCreate s s')
    (hi : PdWorldInv s) : PdWorldInv s' := by
  cases hstep with
  | step r2 => exact sys_create_pd_preserves_inv s r2 hi

theorem rtg_pdcreate_inv (s s' : Kstate) (h : Relation.ReflTransGen PdCreate s s')
    (hi : PdWorldInv s) : PdWorldInv s' := by
  induction h with
  | refl => exact hi
  | tail _ hstep ih => exact pdCreate_preserves_inv _ _ hstep ih

theorem w3_inv : PdWorldInv w3 := by
  refine ⟨fun i _ => rfl, fun i p h => ?_, fun i p h _ => ?_, fun sel c h => ?_⟩ <;>
    simp [w3, w2, w1] at h

/-- Claim C10: a PD created by `sys_create_pd` has the passthrough flag
exactly when the caller requested it and the parent PD has it; consequently,
over any sequence of PD creations in a well-formed world, every PD created
(transitively) from a non-passthrough PD is non-passthrough; and
`sys_pd_ctrl_msr_access`, `sys_machine_ctrl` and `sys_irq_ctrl` all return
BAD_CAP without doing anything when the current PD lacks passthrough. -/
theorem c10_passthrough_inheritance :
    (∀ (s : Kstate) (r : CreatePdArgs) (parentId : Nat),
       capability_cast .pd PERM_OBJ_CREATION (s.caps r.pd) = some parentId →
       s.caps r.sel = none →
       (sys_create_pd s r).1.pdPass s.nextId = (r.is_passthrough && s.pdPass parentId) ∧
       (sys_create_pd s r).2 = .finish .SUCCESS) ∧
    (∀ s s', PdWorldInv s → Relation.ReflTransGen PdCreate s s' →
       ∀ x y, CreatedFrom s' x y → s'.pdPass x = false → s'.pdPass y = false) ∧
    (∀ (s : Kstate) (rm : MsrAccessArgs) (mc : MachineCtrlArgs) (op : IrqOp),
       s.pdPass s.curPd = false →
       sys_pd_ctrl_msr_access s rm = (s, .finish .BAD_CAP, []) ∧
       sys_machine_ctrl s mc = (s, .finish .BAD_CAP, []) ∧
       sys_irq_ctrl s op = (s, .finish .BAD_CAP, [])) := by
  refine ⟨?_, ?_, ?_⟩
  · intro s r parentId hcap hsel
    simp only [sys_create_pd, hcap, insert_root]
    rw [if_pos hsel]
    exact ⟨by simp, rfl⟩
  · intro s s' hi hrtg x y hchain hx
    have hi' := rtg_pdcreate_inv s s' hrtg hi
    have hchain' : Relation.ReflTransGen (fun a b => s'.pdParent b = some a) x y := hchain
    induction hchain' with
    | refl => exact hx
    | @tail b c hxb hstep ih =>
      cases hyt : s'.pdPass c with
      | false => rfl
      | true =>
        have hb := hi'.2.2.1 c b hstep hyt
        rw [ih hxb] at hb
        exact absurd hb (by decide)
  · intro s rm mc op h
    refine ⟨?_, ?_, ?_⟩ <;>
      simp [sys_pd_ctrl_msr_access, sys_machine_ctrl, sys_irq_ctrl, h]

theorem c10_witness :
    ((sys_create_pd w10 ⟨9, 2, true⟩).1.pdPass w10.nextId = (true && w10.pdPass 1) ∧
      (sys_create_pd w10 ⟨9, 2, true⟩).2 = .finish .SUCCESS) ∧
    w3.pdPass 0 = false ∧
    (sys_pd_ctrl_msr_access w1 ⟨0, 0, true⟩ = (w1, .finish .BAD_CAP, []) ∧
     sys_machine_ctrl w1 ⟨.suspendOp, 0, 0⟩ = (w1, .finish .BAD_CAP, []) ∧
     sys_irq_ctrl w1 .configure_vector = (w1, .finish .BAD_CAP, [])) :=
  ⟨c10_passthrough_inheritance.1 w10 ⟨9, 2, true⟩ 1 (by decide) (by decide),
   c10_passthrough_inheritance.2.1 w3 w3 w3_inv Relation.ReflTransGen.refl 0 0
     Relation.ReflTransGen.refl rfl,
   c10_passthrough_inheritance.2.2 w1 ⟨0, 0, true⟩ ⟨.suspendOp, 0, 0⟩ .configure_vector rfl⟩
